import Mathlib

/-!
Shallow embedding of the portfolio rebalancing engine of src/app/portfolio.py.

A pandas DataFrame row of the holdings table becomes a `Row` record; the
DataFrame itself becomes a `List Row` (row order is significant, as in the
source, because anchor selection and the argmax pick use positional
tie-breaking).  Monetary amounts, prices and allocations are modelled as
exact rationals; quantities are integers, as in the CSV data.  Fallible
pandas operations (a `.loc` lookup that raises KeyError, the constructor
path that raises ValueError) become `Except String` values.
-/

set_option linter.unusedVariables false

/-- One row of the holdings table, together with every derived column any of
the engine functions may add.  Columns a stage has not written yet default
to 0 (pandas would hold NaN there; none of the verified properties reads a
column before the stage that writes it, except for the silently-skipped
`total_value_cad` of an unknown-currency row, which the theorems treat
explicitly as the kept prior value). -/
structure Row where
  ticker : String
  exchange : String := ""
  quantity : ℤ := 0
  closing_price : ℚ := 0
  currency : String := "CAD"
  update_date : ℤ := 0
  total_value : ℚ := 0
  total_value_cad : ℚ := 0
  actual_allocation : ℚ := 0
  target_allocation : ℚ := 0
  target_value : ℚ := 0
  target_quantity : ℚ := 0
  rebalance_quantity : ℚ := 0
  rebalancing_cost : ℚ := 0
  fractional_value_no_sell : ℚ := 0
  target_quantity_no_sell : ℤ := 0
  rebalance_quantity_no_sell : ℤ := 0
  rebalancing_cost_no_sell : ℚ := 0
deriving DecidableEq, Repr, Inhabited

/-- One row of the model portfolio table (data/model_portfolio.csv). -/
structure ModelRow where
  ticker : String
  target_allocation : ℚ
deriving DecidableEq, Repr, Inhabited

/-- One row of the storage DataFrame built by `spend_money_scenario`. -/
structure StorageRow where
  ticker : String
  quantity : ℤ
  purchase_cost : ℚ
deriving DecidableEq, Repr, Inhabited

/-- The fields of the `Portfolio` object that the verified methods touch
(`filepath`, used only by CSV I/O, is omitted). -/
structure PortfolioState where
  portfolio : List Row
  exchange_rate : ℚ
  model_portfolio : List ModelRow
  core_portfolio : List Row
  satellite_portfolio : List Row
deriving DecidableEq, Repr

/-- `Portfolio._calculate_total_value` (portfolio.py lines 158-168):
`total_value = closing_price * quantity` for every row, then
`total_value_cad` is assigned on the USD mask and on the CAD mask.  A row
whose currency is neither mask keeps whatever `total_value_cad` it had:
the source has no validation branch and never raises. -/
def calculate_total_value (exchange_rate : ℚ) (portfolio : List Row) : List Row :=
  portfolio.map fun r =>
    let tv : ℚ := r.closing_price * (r.quantity : ℚ)
    { r with
      total_value := tv
      total_value_cad :=
        if r.currency = "USD" then tv * exchange_rate
        else if r.currency = "CAD" then tv
        else r.total_value_cad }

/-- `core_portfolio.total_value.sum`. -/
def totalCoreValue (core : List Row) : ℚ :=
  (core.map Row.total_value).sum

/-- The per-row column assignments of `Portfolio._rebalance`
(portfolio.py lines 131-136). -/
def rebalanceRow (V : ℚ) (r : Row) : Row :=
  let tv : ℚ := r.target_allocation * V
  let tq : ℚ := ((⌈tv / r.closing_price⌉ : ℤ) : ℚ)
  let rq : ℚ := tq - (r.quantity : ℚ)
  { r with
    target_value := tv
    target_quantity := tq
    rebalance_quantity := rq
    rebalancing_cost := rq * r.closing_price }

/-- `Portfolio._rebalance` (portfolio.py lines 123-138): compute target
value/quantity (np.ceil), rebalance quantity and cost, then
`sort_values(by=rebalancing_cost, ascending=False, inplace=True)`.
The source sort is an unstable quicksort; ties are implementation-defined
there, so a deterministic stable descending sort stands in for it. -/
def rebalance (core_portfolio : List Row) : List Row :=
  let V := totalCoreValue core_portfolio
  (core_portfolio.map (rebalanceRow V)).insertionSort
    (fun a b => b.rebalancing_cost ≤ a.rebalancing_cost)

/-- `core_portfolio.rebalancing_cost.min()` (0 on an empty table, where the
source would produce NaN and then fail; all uses are on non-empty tables). -/
def minRebalancingCost (core : List Row) : ℚ :=
  ((core.map Row.rebalancing_cost).min?).getD 0

/-- `best_stock = core[core.rebalancing_cost == core.rebalancing_cost.min()]`
followed by taking row `.iloc[0]` / `.index[0]`: the first row of the table
attaining the minimum rebalancing cost (portfolio.py line 218). -/
def best_stock (core : List Row) : Option Row :=
  core.find? (fun r => decide (r.rebalancing_cost = minRebalancingCost core))

/-- `max_rebalanced_value = best_stock.total_value.iloc[0] /
best_stock.target_allocation.iloc[0]` (portfolio.py line 221). -/
def max_rebalanced_value (core : List Row) : ℚ :=
  match best_stock core with
  | some b => b.total_value / b.target_allocation
  | none => 0

/-- The per-row column assignments of `Portfolio._rebalance_no_sell`
(portfolio.py lines 223-228), with `np.ceil(...).astype(int)` as `Int.ceil`. -/
def rebalanceNoSellRow (M : ℚ) (r : Row) : Row :=
  let fv : ℚ := r.target_allocation * M
  let tq : ℤ := ⌈fv / r.closing_price⌉
  let rq : ℤ := tq - r.quantity
  { r with
    fractional_value_no_sell := fv
    target_quantity_no_sell := tq
    rebalance_quantity_no_sell := rq
    rebalancing_cost_no_sell := (rq : ℚ) * r.closing_price }

/-- `Portfolio._rebalance_no_sell` (portfolio.py lines 207-230).  The
trailing `sort_values` on line 229 is neither `inplace` nor assigned, so the
row order is unchanged.  On an empty table the source raises IndexError at
`best_stock.index[0]`; the embedding is only ever applied to non-empty
tables (the spend loop guards emptiness before calling it). -/
def rebalance_no_sell (core_portfolio : List Row) : List Row :=
  let M := max_rebalanced_value core_portfolio
  core_portfolio.map (rebalanceNoSellRow M)

/-- `portfolio.find?` by ticker: the row a pandas `.loc[t]` lookup on the
ticker index returns (tables in this system have unique tickers). -/
def lookupTicker (portfolio : List Row) (t : String) : Option Row :=
  portfolio.find? (fun r => decide (r.ticker = t))

/-- `portfolio.loc[self.model_portfolio.index]` (portfolio.py line 115):
select the holdings rows for the model tickers, in model order; a model
ticker absent from the holdings raises KeyError. -/
def locRows (portfolio : List Row) : List ModelRow → Except String (List Row)
  | [] => .ok []
  | m :: ms =>
    match lookupTicker portfolio m.ticker with
    | none => .error ("KeyError: " ++ m.ticker)
    | some r => (locRows portfolio ms).map (r :: ·)

/-- `Portfolio._core_satellite_portfolio_split` (portfolio.py lines 107-121):
core = the model-indexed selection of the holdings, given its
`actual_allocation` and then inner-merged with the model on the ticker
index (adding `target_allocation`); satellite = the holdings rows whose
ticker is not in the model index. -/
def core_satellite_portfolio_split (model_portfolio : List ModelRow)
    (portfolio : List Row) : Except String (List Row × List Row) := do
  let core ← locRows portfolio model_portfolio
  let satellite := portfolio.filter
    (fun r => ! model_portfolio.any (fun m => decide (m.ticker = r.ticker)))
  let total_core_portfolio_value := totalCoreValue core
  let core := core.map
    (fun r => { r with actual_allocation := r.total_value / total_core_portfolio_value })
  let core := core.filterMap
    (fun r => (model_portfolio.find? (fun m => decide (m.ticker = r.ticker))).map
      (fun m => { r with target_allocation := m.target_allocation }))
  .ok (core, satellite)

/-- Python `round(x, 2)`: round-half-to-even at two decimal places
(the behaviour of `round` used on line 93 of portfolio.py, stated over
exact rationals). -/
def pyRound2 (x : ℚ) : ℚ :=
  let y := x * 100
  let f : ℤ := ⌊y⌋
  let r := y - (f : ℚ)
  let n : ℤ :=
    if r < 1/2 then f
    else if 1/2 < r then f + 1
    else if f % 2 = 0 then f else f + 1
  (n : ℚ) / 100

/-- `Portfolio._load_model` (portfolio.py lines 80-98) without the CSV I/O:
validate that the target allocations sum to 1.00 after rounding to two
decimals; otherwise raise ValueError and produce nothing. -/
def load_model (model_portfolio : List ModelRow) : Except String (List ModelRow) :=
  let total := (model_portfolio.map ModelRow.target_allocation).sum
  if pyRound2 total ≠ 1 then .error "Check allocations in model portfolio"
  else .ok model_portfolio

/-- `Portfolio.__init__` (portfolio.py lines 43-60) with `update_prices=False`
and the two CSV loads replaced by the already-parsed tables: validate the
model, compute total values, split core/satellite, rebalance the core.
An error anywhere aborts construction with no object produced. -/
def mkPortfolio (holdings : List Row) (model : List ModelRow)
    (exchange_rate : ℚ) : Except String PortfolioState := do
  let model_portfolio ← load_model model
  let portfolio := calculate_total_value exchange_rate holdings
  let (core, satellite) ← core_satellite_portfolio_split model_portfolio portfolio
  let core_portfolio := rebalance core
  .ok { portfolio := portfolio
        exchange_rate := exchange_rate
        model_portfolio := model_portfolio
        core_portfolio := core_portfolio
        satellite_portfolio := satellite }

/-- `scenario_portfolio[scenario_portfolio.closing_price <= money_to_spend]`
(portfolio.py lines 277 and 291): the affordability filter. -/
def affordableRows (S : List Row) (money_to_spend : ℚ) : List Row :=
  S.filter (fun r => decide (r.closing_price ≤ money_to_spend))

/-- `scenario_portfolio.rebalancing_cost.max()` (0 on an empty table, where
pandas yields NaN; see `ticker_to_buy`). -/
def maxRebalancingCost (S : List Row) : ℚ :=
  ((S.map Row.rebalancing_cost).max?).getD 0

/-- `scenario_portfolio[scenario_portfolio.rebalancing_cost ==
scenario_portfolio.rebalancing_cost.max()].index[0]` (portfolio.py line
279): the first row attaining the maximum rebalancing cost.  On an empty
table the source computes NaN as the maximum, selects nothing and the
`.index[0]` raises IndexError; here that is `none`. -/
def ticker_to_buy (S : List Row) : Option Row :=
  S.find? (fun r => decide (r.rebalancing_cost = maxRebalancingCost S))

/-- `scenario_portfolio.loc[ticker_to_buy, quantity] += 1`
(portfolio.py line 281). -/
def incrementQuantity (S : List Row) (t : String) : List Row :=
  S.map (fun r => if r.ticker = t then { r with quantity := r.quantity + 1 } else r)

/-- `storage_dataframe.loc[ticker_to_buy, ...] += ...`
(portfolio.py lines 288-289). -/
def bumpStorage (storage : List StorageRow) (t : String) (cost : ℚ) : List StorageRow :=
  storage.map (fun s =>
    if s.ticker = t then
      { s with quantity := s.quantity + 1, purchase_cost := s.purchase_cost + cost }
    else s)

/-- The storage DataFrame as initialised on portfolio.py lines 270-272:
one all-zero row per scenario row, indexed by ticker. -/
def initStorage (S : List Row) : List StorageRow :=
  S.map (fun r => { ticker := r.ticker, quantity := 0, purchase_cost := 0 })

/-- `storage_dataframe.purchase_cost.sum()` (portfolio.py line 296). -/
def storageSpent (storage : List StorageRow) : ℚ :=
  (storage.map StorageRow.purchase_cost).sum

/-- Outcome of the `while` loop of `spend_money_scenario`: either the loop
exits normally with the final storage table and remaining cash, or it hits
the IndexError of line 279 (`crash`), or the modelling fuel ran out
(`timeout`, which the termination theorem rules out for sufficient fuel). -/
inductive SpendResult where
  | timeout
  | crash
  | done (storage : List StorageRow) (money : ℚ)
deriving DecidableEq, Repr

/-- Whether a spend-loop outcome is the normal `done` exit. -/
def SpendResult.isDone : SpendResult → Bool
  | .done _ _ => true
  | _ => false

/-- The `while len(scenario_portfolio) > 0` loop of `spend_money_scenario`
(portfolio.py lines 274-291), one constructor-step per loop iteration:
filter to affordable rows, pick the first row of maximum rebalancing cost
(IndexError when no row is affordable), buy one unit, deduct the price,
revalue and rebalance the working copy, record the purchase, re-filter by
affordability. -/
def spendLoop (exchange_rate : ℚ) :
    ℕ → List Row → ℚ → List StorageRow → SpendResult
  | 0, _, _, _ => .timeout
  | fuel + 1, S, money_to_spend, storage =>
    if S.isEmpty then .done storage money_to_spend
    else
      let S1 := affordableRows S money_to_spend
      match ticker_to_buy S1 with
      | none => .crash
      | some t =>
        let purchase_cost := t.closing_price
        let S2 := incrementQuantity S1 t.ticker
        let money' := money_to_spend - purchase_cost
        let S3 := rebalance_no_sell (rebalance (calculate_total_value exchange_rate S2))
        let storage' := bumpStorage storage t.ticker purchase_cost
        let S4 := affordableRows S3 money'
        spendLoop exchange_rate fuel S4 money' storage'

/-- Outcome of `Portfolio.spend_money_scenario` as seen by its caller. -/
inductive SpendOutcome where
  | noop
  | result (r : SpendResult)
deriving DecidableEq, Repr

/-- `Portfolio.spend_money_scenario` (portfolio.py lines 255-296) as an
explicit state-passing function: the guard for non-positive cash, the
detached working copy of the stored core portfolio
(`self.core_portfolio.copy()`), the zero-initialised storage table, and
the purchase loop.  The returned state is what `self` holds afterwards. -/
def spend_money_scenario (p : PortfolioState) (money_to_spend : ℚ)
    (fuel : ℕ) : PortfolioState × SpendOutcome :=
  if money_to_spend ≤ 0 then (p, .noop)
  else
    let scenario_portfolio := p.core_portfolio
    let storage_dataframe := initStorage scenario_portfolio
    (p, .result (spendLoop p.exchange_rate fuel scenario_portfolio
      money_to_spend storage_dataframe))

/-- `core.closing_price.min()`: the least closing price of the core set
(0 on an empty table). -/
def minClosingPrice (core : List Row) : ℚ :=
  ((core.map Row.closing_price).min?).getD 0

/-- The input columns of a core row: everything the valuation, split and
model stages wrote, i.e. every column that is not one of the derived
target/rebalance columns added by the two rebalance passes. -/
def inputCols (r : Row) : String × String × ℤ × ℚ × String × ℤ × ℚ × ℚ × ℚ × ℚ :=
  (r.ticker, r.exchange, r.quantity, r.closing_price, r.currency, r.update_date,
   r.total_value, r.total_value_cad, r.actual_allocation, r.target_allocation)

/-- Holdings rows of the concrete two-ticker scenario of the spec
(section 8): A qty=10 price=10, B qty=5 price=20, both CAD. -/
def scenarioHoldings : List Row :=
  [{ ticker := "A", quantity := 10, closing_price := 10, currency := "CAD" },
   { ticker := "B", quantity := 5, closing_price := 20, currency := "CAD" }]

/-- Model of the concrete two-ticker scenario: A 0.6, B 0.4. -/
def scenarioModel : List ModelRow :=
  [{ ticker := "A", target_allocation := 6/10 },
   { ticker := "B", target_allocation := 4/10 }]

/-- The core portfolio the constructor computes for the two-ticker
scenario (empty if construction failed; the scenario theorem shows it
succeeds). -/
def scenarioCore : List Row :=
  match mkPortfolio scenarioHoldings scenarioModel 1 with
  | .ok p => p.core_portfolio
  | .error _ => []

/-- A valued three-ticker core set on which the no-sell rebalance produces
a negative purchase quantity: allocations A 0.5, B 0.1, C 0.4; one-dollar
prices; quantities (hence values) A 10, B 60, C 130. -/
def negativeNoSellCore : List Row :=
  [{ ticker := "A", quantity := 10, closing_price := 1, total_value := 10,
     target_allocation := 5/10 },
   { ticker := "B", quantity := 60, closing_price := 1, total_value := 60,
     target_allocation := 1/10 },
   { ticker := "C", quantity := 130, closing_price := 1, total_value := 130,
     target_allocation := 4/10 }]

/-- The valued A row of the two-ticker scenario (after
`calculate_total_value` with exchange rate 1). -/
def rowAval : Row :=
  { ticker := "A", quantity := 10, closing_price := 10, currency := "CAD",
    total_value := 100, total_value_cad := 100 }

/-- The valued B row of the two-ticker scenario. -/
def rowBval : Row :=
  { ticker := "B", quantity := 5, closing_price := 20, currency := "CAD",
    total_value := 100, total_value_cad := 100 }

/-- The A row of the two-ticker scenario after the split and the
unconstrained rebalance. -/
def rowAreb : Row :=
  { rowAval with
    actual_allocation := 1/2
    target_allocation := 6/10
    target_value := 120
    target_quantity := 12
    rebalance_quantity := 2
    rebalancing_cost := 20 }

/-- The B row of the two-ticker scenario after the split and the
unconstrained rebalance. -/
def rowBreb : Row :=
  { rowBval with
    actual_allocation := 1/2
    target_allocation := 4/10
    target_value := 80
    target_quantity := 4
    rebalance_quantity := -1
    rebalancing_cost := -20 }

/-- A holdings row whose currency is neither USD nor CAD, with a stale
home-currency value in place. -/
def unknownCurrencyRow : Row :=
  { ticker := "X", quantity := 5, closing_price := 10, currency := "EUR",
    total_value_cad := 7 }

/-- A one-row core portfolio whose single price (10) exceeds the cash the
spend scenario is asked to deploy. -/
def unaffordableCore : List Row :=
  [{ ticker := "Z", quantity := 1, closing_price := 10, currency := "CAD",
     total_value := 10, target_allocation := 1 }]

/-- A portfolio state holding `unaffordableCore` as its core portfolio. -/
def unaffordableState : PortfolioState :=
  { portfolio := unaffordableCore
    exchange_rate := 1
    model_portfolio := [{ ticker := "Z", target_allocation := 1 }]
    core_portfolio := unaffordableCore
    satellite_portfolio := [] }

/-- A core row with consistent valuation (price 2, quantity 4, value 8)
and a rebalancing cost already in place. -/
def anchorRow : Row :=
  { ticker := "W", quantity := 4, closing_price := 2, currency := "CAD",
    total_value := 8, target_allocation := 1, rebalancing_cost := 0 }

/-- A one-row core set whose single row is its own anchor. -/
def anchorCore : List Row := [anchorRow]

/-- The row the no-sell rebalance produces for `anchorRow` on `anchorCore`
(scale 8/1 = 8, fractional value 8, ceil(8/2) = 4, zero purchase). -/
def anchorRowNoSell : Row :=
  { anchorRow with
    fractional_value_no_sell := 8
    target_quantity_no_sell := 4
    rebalance_quantity_no_sell := 0
    rebalancing_cost_no_sell := 0 }

/-- A one-row core set (price 10, nothing held yet) for running the spend
scenario with cash 15: exactly one unit is affordable. -/
def spendCore : List Row :=
  [{ ticker := "S", quantity := 0, closing_price := 10, currency := "CAD",
     target_allocation := 1 }]

/-- Valued holdings for a concrete core/satellite split: A is in the model,
B is not. -/
def splitHoldings : List Row :=
  [{ ticker := "A", total_value := 100 },
   { ticker := "B", total_value := 50 }]

/-- The model for the concrete split: A alone (allocations summing to 0.50,
which the splitter itself does not check). -/
def splitModel : List ModelRow :=
  [{ ticker := "A", target_allocation := 1/2 }]

/-- The core table the splitter produces for `splitHoldings`/`splitModel`. -/
def splitCore : List Row :=
  [{ ticker := "A", total_value := 100, actual_allocation := 1,
     target_allocation := 1/2 }]

/-- The satellite table the splitter produces for
`splitHoldings`/`splitModel`. -/
def splitSatellite : List Row :=
  [{ ticker := "B", total_value := 50 }]

/-! ## Helper lemmas -/

theorem ceil_eval (a : ℚ) : ⌈a⌉ = -⌊-a⌋ := by
  rw [Int.floor_neg, neg_neg]

theorem inputCols_rebalanceRow (V : ℚ) (r : Row) :
    inputCols (rebalanceRow V r) = inputCols r := rfl

theorem inputCols_rebalanceNoSellRow (M : ℚ) (r : Row) :
    inputCols (rebalanceNoSellRow M r) = inputCols r := rfl

theorem rebalance_perm (core : List Row) :
    (rebalance core).Perm (core.map (rebalanceRow (totalCoreValue core))) :=
  List.perm_insertionSort _ _

theorem mem_rebalance_iff (core : List Row) (s : Row) :
    s ∈ rebalance core ↔ s ∈ core.map (rebalanceRow (totalCoreValue core)) :=
  List.mem_insertionSort _

theorem min?_le_of_mem {l : List ℚ} {m b : ℚ} (h : l.min? = some m)
    (hb : b ∈ l) : m ≤ b := by
  induction l generalizing m with
  | nil => cases hb
  | cons a as ih =>
    rw [List.min?_cons] at h
    injection h with h
    cases has : as.min? with
    | none =>
      rw [has] at h
      simp at h
      subst h
      rw [List.min?_eq_none_iff] at has
      subst has
      have hba : b = a := by simpa using hb
      simp [hba]
    | some m2 =>
      rw [has] at h
      simp at h
      subst h
      rcases List.mem_cons.mp hb with rb | rb
      · simp [rb]
      · exact le_trans (min_le_right _ _) (ih has rb)

theorem minClosingPrice_le {core : List Row} {r : Row} (hr : r ∈ core) :
    minClosingPrice core ≤ r.closing_price := by
  cases h : (core.map Row.closing_price).min? with
  | none =>
    rw [List.min?_eq_none_iff, List.map_eq_nil_iff] at h
    subst h
    cases hr
  | some m =>
    have : minClosingPrice core = m := by simp [minClosingPrice, h]
    rw [this]
    exact min?_le_of_mem h (List.mem_map_of_mem _ hr)

theorem minClosingPrice_pos {core : List Row} (hne : core ≠ [])
    (hp : ∀ r ∈ core, 0 < r.closing_price) : 0 < minClosingPrice core := by
  cases h : (core.map Row.closing_price).min? with
  | none =>
    rw [List.min?_eq_none_iff, List.map_eq_nil_iff] at h
    exact absurd h hne
  | some m =>
    have hm : m ∈ core.map Row.closing_price := List.min?_mem min_choice h
    rcases List.mem_map.mp hm with ⟨r, hrmem, hrp⟩
    have : minClosingPrice core = m := by simp [minClosingPrice, h]
    rw [this, ← hrp]
    exact hp r hrmem

theorem ticker_to_buy_exists {S : List Row} (hne : S ≠ []) :
    ∃ t, ticker_to_buy S = some t ∧ t ∈ S := by
  cases h : (S.map Row.rebalancing_cost).max? with
  | none =>
    rw [List.max?_eq_none_iff, List.map_eq_nil_iff] at h
    exact absurd h hne
  | some m =>
    have hm : m ∈ S.map Row.rebalancing_cost := List.max?_mem max_choice h
    rcases List.mem_map.mp hm with ⟨r, hrmem, hrc⟩
    have hmax : maxRebalancingCost S = m := by simp [maxRebalancingCost, h]
    have hsome : (S.find? (fun r => decide (r.rebalancing_cost = maxRebalancingCost S))).isSome := by
      rw [List.find?_isSome]
      exact ⟨r, hrmem, by simp [hmax, hrc]⟩
    rcases Option.isSome_iff_exists.mp hsome with ⟨t, ht⟩
    exact ⟨t, ht, List.mem_of_find?_eq_some ht⟩

/-- Valuation, both rebalance passes, quantity increments and affordability
filters never change a row's ticker or closing price: every row of the
recomputed working set descends from a row of the input set with the same
ticker and price. -/
theorem loopBody_track (fx : ℚ) (S : List Row) :
    ∀ s ∈ rebalance_no_sell (rebalance (calculate_total_value fx S)),
      ∃ r ∈ S, s.ticker = r.ticker ∧ s.closing_price = r.closing_price := by
  intro s hs
  rcases List.mem_map.mp hs with ⟨s3, hs3, rfl⟩
  rcases List.mem_map.mp ((mem_rebalance_iff _ _).mp hs3) with ⟨s2, hs2, rfl⟩
  rcases List.mem_map.mp hs2 with ⟨r, hr, rfl⟩
  exact ⟨r, hr, rfl, rfl⟩

theorem incrementQuantity_track {S : List Row} (t : String) :
    ∀ s ∈ incrementQuantity S t,
      ∃ r ∈ S, s.ticker = r.ticker ∧ s.closing_price = r.closing_price := by
  intro s hs
  rcases List.mem_map.mp hs with ⟨r, hr, rfl⟩
  refine ⟨r, hr, ?_, ?_⟩ <;> by_cases h : r.ticker = t <;> simp [h]

theorem affordableRows_subset {S : List Row} {money : ℚ} :
    ∀ s ∈ affordableRows S money, s ∈ S ∧ s.closing_price ≤ money := by
  intro s hs
  have := List.mem_filter.mp hs
  exact ⟨this.1, by simpa using this.2⟩

theorem storageSpent_bump {storage : List StorageRow} {t : String} (c : ℚ)
    (hmem : t ∈ storage.map StorageRow.ticker)
    (hnd : (storage.map StorageRow.ticker).Nodup) :
    storageSpent (bumpStorage storage t c) = storageSpent storage + c := by
  induction storage with
  | nil => cases hmem
  | cons s ss ih =>
    simp only [List.map_cons, List.nodup_cons] at hnd
    by_cases hst : s.ticker = t
    · have hss : ∀ x ∈ ss, ¬ (x.ticker = t) := by
        intro x hx hxt
        exact hnd.1 (by rw [hst, ← hxt]; exact List.mem_map_of_mem _ hx)
      have hb2 : bumpStorage ss t c = ss := by
        unfold bumpStorage
        have hcongr := List.map_congr_left (l := ss)
          (f := fun x : StorageRow => if x.ticker = t then
            { x with quantity := x.quantity + 1, purchase_cost := x.purchase_cost + c }
            else x)
          (g := id) (fun x hx => by simp [hss x hx])
        simpa using hcongr
      simp only [bumpStorage, storageSpent, List.map_cons, List.sum_cons] at hb2 ⊢
      rw [if_pos hst]
      have hb3 : (List.map StorageRow.purchase_cost (List.map (fun x : StorageRow =>
          if x.ticker = t then
            { x with quantity := x.quantity + 1, purchase_cost := x.purchase_cost + c }
          else x) ss)).sum = (List.map StorageRow.purchase_cost ss).sum := by
        rw [hb2]
      simp only [hb3]
      ring
    · have hm2 : t ∈ ss.map StorageRow.ticker := by
        rcases List.mem_cons.mp hmem with h | h
        · exact absurd h.symm hst
        · exact h
      have hrec := ih hm2 hnd.2
      simp only [bumpStorage, storageSpent, List.map_cons, List.sum_cons] at hrec ⊢
      rw [if_neg hst]
      rw [hrec]
      ring

/-! ## Claim theorems -/

/-- C7: for every cash amount and every core set, running the spend
simulator leaves the caller's authoritative tables unchanged: the
portfolio state it was invoked on (in particular the holdings table and
the stored core portfolio) is returned exactly as it was, the simulation
operating only on the detached working copy. -/
theorem C7_spend_scenario_frame (p : PortfolioState) (money_to_spend : ℚ)
    (fuel : ℕ) :
    (spend_money_scenario p money_to_spend fuel).1 = p ∧
    (spend_money_scenario p money_to_spend fuel).1.portfolio = p.portfolio ∧
    (spend_money_scenario p money_to_spend fuel).1.core_portfolio = p.core_portfolio := by
  unfold spend_money_scenario
  split <;> exact ⟨rfl, rfl, rfl⟩

/-- C8 counterexample: on a row whose currency is "EUR" the valuation does
not signal any error: it computes `total_value` and silently keeps the
row's previous `total_value_cad` (here the stale value 7), contradicting
the claim that a data-validation error is signalled exactly when some
row's currency is neither USD nor CAD and that such a row is never
silently defaulted. -/
theorem C8_counterexample_unknown_currency_silent :
    calculate_total_value 2 [unknownCurrencyRow]
      = [{ unknownCurrencyRow with total_value := 50, total_value_cad := 7 }] := by
  norm_num [calculate_total_value, unknownCurrencyRow]
  rw [if_neg (by decide), if_neg (by decide)]

/-- C8 (amended): the valuation never signals an error.  For every row it
sets `total_value = closing_price * quantity`; it sets
`total_value_cad = total_value * fx_rate` on USD rows and
`total_value_cad = total_value` on CAD rows; a row with any other currency
keeps its previous `total_value_cad` (it is silently skipped, not
rejected). -/
theorem C8_valuation_amended (fx : ℚ) (portfolio : List Row) :
    List.Forall₂ (fun r s =>
      s.ticker = r.ticker ∧
      s.total_value = r.closing_price * (r.quantity : ℚ) ∧
      (r.currency = "USD" →
        s.total_value_cad = r.closing_price * (r.quantity : ℚ) * fx) ∧
      (r.currency = "CAD" →
        s.total_value_cad = r.closing_price * (r.quantity : ℚ)) ∧
      (r.currency ≠ "USD" → r.currency ≠ "CAD" →
        s.total_value_cad = r.total_value_cad))
      portfolio (calculate_total_value fx portfolio) := by
  induction portfolio with
  | nil => exact List.Forall₂.nil
  | cons r rs ih =>
    refine List.Forall₂.cons ⟨rfl, rfl, ?_, ?_, ?_⟩ ih
    · intro h
      simp [h]
    · intro h
      by_cases h1 : r.currency = "USD"
      · exact absurd (h1.symm.trans h) (by decide)
      · simp [h1, h]
    · intro h1 h2
      simp [h1, h2]

/-- C10: both rebalance passes only add or overwrite the derived
target/rebalance columns.  The multiset of input-column tuples (ticker,
exchange, quantity, closing price, currency, update date, total values,
actual and target allocation) of the unconstrained rebalance output is a
permutation of the input's (the pass re-sorts rows), the no-sell pass
preserves them in order, and every row's input columns survive into the
output and come from the input. -/
theorem C10_rebalance_input_columns_frame (core : List Row) :
    ((rebalance core).map inputCols).Perm (core.map inputCols) ∧
    (rebalance_no_sell core).map inputCols = core.map inputCols ∧
    (∀ r ∈ core, ∃ s ∈ rebalance core, inputCols s = inputCols r) ∧
    (∀ s ∈ rebalance core, ∃ r ∈ core, inputCols s = inputCols r) := by
  have hmap : (core.map (rebalanceRow (totalCoreValue core))).map inputCols
      = core.map inputCols := by
    rw [List.map_map]
    exact List.map_congr_left (fun r hr => inputCols_rebalanceRow _ r)
  have hperm := (rebalance_perm core).map inputCols
  rw [hmap] at hperm
  refine ⟨hperm, ?_, ?_, ?_⟩
  · unfold rebalance_no_sell
    rw [List.map_map]
    exact List.map_congr_left (fun r hr => inputCols_rebalanceNoSellRow _ r)
  · intro r hr
    refine ⟨rebalanceRow (totalCoreValue core) r, ?_, inputCols_rebalanceRow _ r⟩
    exact (mem_rebalance_iff _ _).mpr (List.mem_map_of_mem _ hr)
  · intro s hs
    rcases List.mem_map.mp ((mem_rebalance_iff _ _).mp hs) with ⟨r, hr, rfl⟩
    exact ⟨r, hr, inputCols_rebalanceRow _ r⟩

/-- C2: the concrete two-ticker scenario.  With model A 0.6 / B 0.4 and
holdings A qty=10 price=10, B qty=5 price=20, the constructor's
unconstrained rebalance yields rebalance_quantity A=+2, B=-1 with
rebalancing_cost A=+20, B=-20 (rows sorted by descending cost); the
no-sell rebalance selects anchor B, derives max_rebalanced_value
100/0.4 = 250, and yields fractional values A=150, B=100, no-sell target
quantities A=15, B=5 and rebalance_quantity_no_sell A=+5, B=0. -/
theorem C2_concrete_two_ticker_scenario :
    scenarioCore = [rowAreb, rowBreb] ∧
    scenarioCore.map (fun r => (r.ticker, r.rebalance_quantity, r.rebalancing_cost))
      = [("A", 2, 20), ("B", -1, -20)] ∧
    (best_stock scenarioCore).map Row.ticker = some "B" ∧
    max_rebalanced_value scenarioCore = 250 ∧
    (rebalance_no_sell scenarioCore).map (fun r =>
        (r.ticker, r.fractional_value_no_sell, r.target_quantity_no_sell,
         r.rebalance_quantity_no_sell))
      = [("A", 150, 15, 5), ("B", 100, 5, 0)] := by
  have sAB : ("A" : String) = "B" ↔ False := iff_false_intro (by decide)
  have sBA : ("B" : String) = "A" ↔ False := iff_false_intro (by decide)
  have hmodel : load_model scenarioModel = .ok scenarioModel := by
    norm_num [load_model, pyRound2, scenarioModel]
  have hval : calculate_total_value 1 scenarioHoldings = [rowAval, rowBval] := by
    norm_num [calculate_total_value, scenarioHoldings, rowAval, rowBval]
  have hsplit : core_satellite_portfolio_split scenarioModel [rowAval, rowBval] =
      .ok ([{ rowAval with actual_allocation := 1/2, target_allocation := 6/10 },
            { rowBval with actual_allocation := 1/2, target_allocation := 4/10 }], []) := by
    norm_num [core_satellite_portfolio_split, locRows, lookupTicker, scenarioModel,
      List.find?, rowAval, rowBval, Except.map, Bind.bind, Except.bind, Pure.pure,
      Except.pure, totalCoreValue, List.filter, List.filterMap, sAB, sBA]
  have hreb : rebalance [{ rowAval with actual_allocation := 1/2, target_allocation := 6/10 },
      { rowBval with actual_allocation := 1/2, target_allocation := 4/10 }]
      = [rowAreb, rowBreb] := by
    norm_num [rebalance, rebalanceRow, totalCoreValue, List.insertionSort,
      List.orderedInsert, ceil_eval, rowAval, rowBval, rowAreb, rowBreb]
  have hrun : mkPortfolio scenarioHoldings scenarioModel 1 =
      .ok { portfolio := [rowAval, rowBval], exchange_rate := 1,
            model_portfolio := scenarioModel, core_portfolio := [rowAreb, rowBreb],
            satellite_portfolio := [] } := by
    simp only [mkPortfolio, Bind.bind, Except.bind, hmodel, hval, hsplit, hreb,
      Pure.pure, Except.pure]
  have hcore : scenarioCore = [rowAreb, rowBreb] := by
    simp [scenarioCore, hrun]
  refine ⟨hcore, ?_, ?_, ?_, ?_⟩
  · rw [hcore]
    norm_num [rowAreb, rowBreb, rowAval, rowBval]
  · rw [hcore]
    norm_num [best_stock, minRebalancingCost, List.min?, List.find?, rowAreb, rowBreb,
      rowAval, rowBval, min_def]
  · rw [hcore]
    norm_num [max_rebalanced_value, best_stock, minRebalancingCost, List.min?,
      List.find?, rowAreb, rowBreb, rowAval, rowBval, min_def]
  · rw [hcore]
    norm_num [rebalance_no_sell, rebalanceNoSellRow, max_rebalanced_value, best_stock,
      minRebalancingCost, List.min?, List.find?, rowAreb, rowBreb, rowAval, rowBval,
      min_def, ceil_eval]

/-- C9 (the spec is right, the code is wrong): with positive cash 5 and a
non-empty core whose only row costs 10 (no row affordable), the source is
specified to terminate normally with a zero-purchase plan, but the loop
body filters the working set empty and then evaluates
`.index[0]` on the empty selection, raising IndexError — modelled here as
the `crash` outcome, reached for any fuel. -/
theorem C9_unaffordable_first_iteration_crashes (fuel : ℕ) :
    spend_money_scenario unaffordableState 5 (fuel + 1)
      = (unaffordableState, .result .crash) := by
  have h5 : ¬ ((5 : ℚ) ≤ 0) := by norm_num
  simp only [spend_money_scenario, if_neg h5]
  have hcore : unaffordableState.core_portfolio = unaffordableCore := rfl
  rw [hcore]
  have haff : affordableRows unaffordableCore 5 = [] := by
    norm_num [affordableRows, unaffordableCore, List.filter]
  simp only [spendLoop, unaffordableCore, List.isEmpty_cons, Bool.false_eq_true,
    if_false, haff]
  simp [ticker_to_buy, List.find?]

/-- C1 counterexample: a three-ticker core set (allocations A 0.5, B 0.1,
C 0.4, unit prices, quantities 10/60/130) on which the unconstrained
rebalance followed by the no-sell rebalance produces
rebalance_quantity_no_sell = -27 < 0 for row B: the buy-only guarantee
fails on the code, because the anchor (row C, minimum rebalancing cost
-50) does not have the largest value-to-allocation ratio. -/
theorem C1_counterexample_negative_no_sell_quantity :
    (rebalance_no_sell (rebalance negativeNoSellCore)).map
        (fun r => (r.ticker, r.rebalance_quantity_no_sell))
      = [("A", 153), ("B", -27), ("C", 0)] ∧
    ((rebalance_no_sell (rebalance negativeNoSellCore)).map
        Row.rebalance_quantity_no_sell).any (fun q => decide (q < 0)) = true := by
  have hreb : rebalance negativeNoSellCore =
      [{ ticker := "A", quantity := 10, closing_price := 1, total_value := 10,
         target_allocation := 5/10, target_value := 100, target_quantity := 100,
         rebalance_quantity := 90, rebalancing_cost := 90 },
       { ticker := "B", quantity := 60, closing_price := 1, total_value := 60,
         target_allocation := 1/10, target_value := 20, target_quantity := 20,
         rebalance_quantity := -40, rebalancing_cost := -40 },
       { ticker := "C", quantity := 130, closing_price := 1, total_value := 130,
         target_allocation := 4/10, target_value := 80, target_quantity := 80,
         rebalance_quantity := -50, rebalancing_cost := -50 }] := by
    norm_num [rebalance, rebalanceRow, totalCoreValue, List.insertionSort,
      List.orderedInsert, ceil_eval, negativeNoSellCore]
  rw [hreb]
  constructor
  · norm_num [rebalance_no_sell, rebalanceNoSellRow, max_rebalanced_value, best_stock,
      minRebalancingCost, List.min?, List.find?, min_def, ceil_eval]
  · norm_num [rebalance_no_sell, rebalanceNoSellRow, max_rebalanced_value, best_stock,
      minRebalancingCost, List.min?, List.find?, min_def, ceil_eval, List.any]

/-- C3: for every core set with positive closing prices, consistent
valuation (total_value = closing_price * quantity with integer
quantities), unique tickers and a positively-allocated anchor, the anchor
row selected by the no-sell rebalance (first row of minimum
rebalancing_cost) gets rebalance_quantity_no_sell = 0: the anchor itself
requires zero additional purchase. -/
theorem C3_anchor_requires_zero_purchase (core : List Row) (b : Row)
    (hb : best_stock core = some b)
    (hnd : (core.map Row.ticker).Nodup)
    (hp : ∀ r ∈ core, 0 < r.closing_price)
    (hv : ∀ r ∈ core, r.total_value = r.closing_price * (r.quantity : ℚ))
    (ha : 0 < b.target_allocation) :
    (∃ s ∈ rebalance_no_sell core, s.ticker = b.ticker ∧
        s.rebalance_quantity_no_sell = 0) ∧
    (∀ s ∈ rebalance_no_sell core, s.ticker = b.ticker →
        s.rebalance_quantity_no_sell = 0) := by
  have hbmem : b ∈ core := List.mem_of_find?_eq_some hb
  have hM : max_rebalanced_value core = b.total_value / b.target_allocation := by
    simp [max_rebalanced_value, hb]
  have hkey : (rebalanceNoSellRow (max_rebalanced_value core) b).rebalance_quantity_no_sell
      = 0 := by
    simp only [rebalanceNoSellRow, hM]
    have h1 : b.target_allocation * (b.total_value / b.target_allocation)
        = b.total_value := by
      rw [mul_comm, div_mul_cancel₀ _ (ne_of_gt ha)]
    rw [h1, hv b hbmem, mul_div_cancel_left₀ _ (ne_of_gt (hp b hbmem))]
    simp
  constructor
  · exact ⟨rebalanceNoSellRow (max_rebalanced_value core) b,
      List.mem_map_of_mem _ hbmem, rfl, hkey⟩
  · intro s hs hst
    rcases List.mem_map.mp hs with ⟨r, hr, rfl⟩
    have hrb : r = b :=
      List.inj_on_of_nodup_map hnd hr hbmem (by simpa using hst)
    rw [hrb]
    exact hkey

/-- C3 witness: on the concrete one-row core `anchorCore` the theorem's
hypotheses hold and its conclusion, instantiated at the concrete no-sell
output row, gives that row a zero purchase quantity. -/
theorem C3_anchor_requires_zero_purchase_witness :
    anchorRowNoSell.rebalance_quantity_no_sell = 0 :=
  (C3_anchor_requires_zero_purchase anchorCore anchorRow
    (by norm_num [best_stock, minRebalancingCost, List.min?, List.find?,
      anchorCore, anchorRow])
    (by decide)
    (by norm_num [anchorCore, anchorRow])
    (by norm_num [anchorCore, anchorRow])
    (by norm_num [anchorRow])).2
    anchorRowNoSell
    (by norm_num [rebalance_no_sell, rebalanceNoSellRow, max_rebalanced_value,
      best_stock, minRebalancingCost, List.min?, List.find?, anchorCore, anchorRow,
      anchorRowNoSell, ceil_eval])
    rfl

/-- C1 (amended): the buy-only guarantee of the no-sell rebalance holds
for a core row exactly as far as the anchor scale reaches: for every core
set with positive prices and consistent valuation, every row with
positive target allocation whose value-to-allocation ratio is at most the
anchor's max_rebalanced_value gets rebalance_quantity_no_sell >= 0.  (The
C1 counterexample shows it can fail for a row whose ratio exceeds the
anchor's, which the source does not clamp.) -/
theorem C1_amended_no_sell_nonneg_within_anchor_scale (core : List Row)
    (hp : ∀ r ∈ core, 0 < r.closing_price)
    (hv : ∀ r ∈ core, r.total_value = r.closing_price * (r.quantity : ℚ)) :
    ∀ s ∈ rebalance_no_sell core, 0 < s.target_allocation →
      s.total_value / s.target_allocation ≤ max_rebalanced_value core →
      0 ≤ s.rebalance_quantity_no_sell := by
  intro s hs
  rcases List.mem_map.mp hs with ⟨r, hr, rfl⟩
  intro hapos hscale
  have hapos' : 0 < r.target_allocation := hapos
  have hscale' : r.total_value / r.target_allocation ≤ max_rebalanced_value core := hscale
  have hp' := hp r hr
  have h1 : r.total_value ≤ r.target_allocation * max_rebalanced_value core := by
    rw [div_le_iff₀ hapos'] at hscale'
    linarith [hscale']
  have hq : r.total_value / r.closing_price = (r.quantity : ℚ) := by
    rw [hv r hr]
    exact mul_div_cancel_left₀ _ (ne_of_gt hp')
  have h2 : (r.quantity : ℚ)
      ≤ r.target_allocation * max_rebalanced_value core / r.closing_price := by
    rw [← hq]
    exact (div_le_div_iff_of_pos_right hp').mpr h1
  have h3 : (r.quantity : ℚ)
      ≤ ((⌈r.target_allocation * max_rebalanced_value core / r.closing_price⌉ : ℤ) : ℚ) :=
    le_trans h2 (Int.le_ceil _)
  have h4 : r.quantity ≤ ⌈r.target_allocation * max_rebalanced_value core / r.closing_price⌉ := by
    exact_mod_cast h3
  simp only [rebalanceNoSellRow]
  omega

/-- C1 (amended) witness: on the concrete one-row core `anchorCore`, whose
single row sits exactly at the anchor scale, the theorem instantiated at
the concrete no-sell output row yields a non-negative purchase quantity. -/
theorem C1_amended_no_sell_nonneg_witness :
    (0 : ℤ) ≤ anchorRowNoSell.rebalance_quantity_no_sell :=
  C1_amended_no_sell_nonneg_within_anchor_scale anchorCore
    (by norm_num [anchorCore, anchorRow])
    (by norm_num [anchorCore, anchorRow])
    anchorRowNoSell
    (by norm_num [rebalance_no_sell, rebalanceNoSellRow, max_rebalanced_value,
      best_stock, minRebalancingCost, List.min?, List.find?, anchorCore, anchorRow,
      anchorRowNoSell, ceil_eval])
    (by norm_num [anchorRowNoSell, anchorRow])
    (by norm_num [anchorRowNoSell, anchorRow, max_rebalanced_value, best_stock,
      minRebalancingCost, List.min?, List.find?, anchorCore])

theorem lookupTicker_spec {portfolio : List Row} {t : String} {r : Row}
    (h : lookupTicker portfolio t = some r) : r ∈ portfolio ∧ r.ticker = t := by
  refine ⟨List.mem_of_find?_eq_some h, ?_⟩
  have := List.find?_some h
  simpa using this

theorem lookupTicker_isSome {portfolio : List Row} {t : String}
    (h : ∃ r ∈ portfolio, r.ticker = t) :
    ∃ r, lookupTicker portfolio t = some r := by
  rcases h with ⟨r, hr, ht⟩
  have : (portfolio.find? (fun x => decide (x.ticker = t))).isSome := by
    rw [List.find?_isSome]
    exact ⟨r, hr, by simp [ht]⟩
  exact Option.isSome_iff_exists.mp this

theorem locRows_ok_of_found (portfolio : List Row) (ms : List ModelRow)
    (h : ∀ m ∈ ms, ∃ r ∈ portfolio, r.ticker = m.ticker) :
    ∃ l, locRows portfolio ms = .ok l := by
  induction ms with
  | nil => exact ⟨[], rfl⟩
  | cons m ms ih =>
    rcases lookupTicker_isSome (h m (List.mem_cons_self m ms)) with ⟨r, hr⟩
    rcases ih (fun m' hm' => h m' (List.mem_cons_of_mem m hm')) with ⟨l, hl⟩
    exact ⟨r :: l, by simp [locRows, hr, hl, Except.map]⟩

theorem locRows_ok_mem_left {portfolio : List Row} {ms : List ModelRow}
    {l : List Row} (h : locRows portfolio ms = .ok l) :
    ∀ r ∈ l, ∃ m ∈ ms, lookupTicker portfolio m.ticker = some r := by
  induction ms generalizing l with
  | nil =>
    simp only [locRows] at h
    cases h
    intro r hr
    cases hr
  | cons m ms ih =>
    simp only [locRows] at h
    cases hlook : lookupTicker portfolio m.ticker with
    | none => rw [hlook] at h; cases h
    | some r0 =>
      rw [hlook] at h
      cases hrec : locRows portfolio ms with
      | error e => rw [hrec] at h; cases h
      | ok l0 =>
        rw [hrec] at h
        simp [Except.map] at h
        subst h
        intro r hr
        rcases List.mem_cons.mp hr with rfl | hr
        · exact ⟨m, List.mem_cons_self m ms, hlook⟩
        · rcases ih hrec r hr with ⟨m', hm', hm'l⟩
          exact ⟨m', List.mem_cons_of_mem m hm', hm'l⟩

theorem locRows_ok_mem_right {portfolio : List Row} {ms : List ModelRow}
    {l : List Row} (h : locRows portfolio ms = .ok l) :
    ∀ m ∈ ms, ∃ r ∈ l, r.ticker = m.ticker := by
  induction ms generalizing l with
  | nil =>
    intro m hm
    cases hm
  | cons m0 ms ih =>
    simp only [locRows] at h
    cases hlook : lookupTicker portfolio m0.ticker with
    | none => rw [hlook] at h; cases h
    | some r0 =>
      rw [hlook] at h
      cases hrec : locRows portfolio ms with
      | error e => rw [hrec] at h; cases h
      | ok l0 =>
        rw [hrec] at h
        simp [Except.map] at h
        subst h
        intro m hm
        rcases List.mem_cons.mp hm with rfl | hm
        · exact ⟨r0, List.mem_cons_self r0 l0, (lookupTicker_spec hlook).2⟩
        · rcases ih hrec m hm with ⟨r, hr, hrt⟩
          exact ⟨r, List.mem_cons_of_mem r0 hr, hrt⟩

/-- C5: model-allocation validation.  If the target allocations, summed and
rounded (half-to-even) to two decimals, differ from 1.00, the constructor
raises the ValueError of `_load_model` and no portfolio object is
produced; if the rounded sum is 1.00 (and every model ticker is present
in the holdings, so the split's `.loc` succeeds), construction proceeds
and yields a portfolio object. -/
theorem C5_model_allocation_sum_validation (holdings : List Row)
    (model : List ModelRow) (exchange_rate : ℚ) :
    (pyRound2 ((model.map ModelRow.target_allocation).sum) ≠ 1 →
      mkPortfolio holdings model exchange_rate
        = .error "Check allocations in model portfolio") ∧
    (pyRound2 ((model.map ModelRow.target_allocation).sum) = 1 →
      (∀ m ∈ model, ∃ r ∈ holdings, r.ticker = m.ticker) →
      ∃ p, mkPortfolio holdings model exchange_rate = .ok p) := by
  constructor
  · intro h
    have hlm : load_model model = .error "Check allocations in model portfolio" := by
      unfold load_model
      rw [if_pos h]
    simp only [mkPortfolio, Bind.bind, Except.bind, hlm]
  · intro h hfound
    have hlm : load_model model = .ok model := by
      unfold load_model
      rw [if_neg (by simp [h])]
    have hfound2 : ∀ m ∈ model, ∃ r ∈ calculate_total_value exchange_rate holdings,
        r.ticker = m.ticker := by
      intro m hm
      rcases hfound m hm with ⟨r, hr, ht⟩
      refine ⟨_, List.mem_map_of_mem _ hr, ht⟩
    rcases locRows_ok_of_found _ model hfound2 with ⟨l, hl⟩
    refine ⟨{ portfolio := calculate_total_value exchange_rate holdings
              exchange_rate := exchange_rate
              model_portfolio := model
              core_portfolio := rebalance
                ((l.map (fun r =>
                    { r with actual_allocation := r.total_value / totalCoreValue l })).filterMap
                  (fun r => (model.find? (fun m => decide (m.ticker = r.ticker))).map
                    (fun m => { r with target_allocation := m.target_allocation })))
              satellite_portfolio := (calculate_total_value exchange_rate holdings).filter
                (fun r => ! model.any (fun m => decide (m.ticker = r.ticker))) }, ?_⟩
    simp only [mkPortfolio, core_satellite_portfolio_split, Bind.bind,
      Except.bind, hlm, hl, Pure.pure, Except.pure]

/-- C5 witness: a model summing to 0.50 is rejected with the ValueError
message and no object; the two-ticker scenario model (sum 1.00, tickers
present) constructs successfully. -/
theorem C5_model_allocation_sum_validation_witness :
    mkPortfolio [] splitModel 1 = .error "Check allocations in model portfolio" ∧
    (mkPortfolio scenarioHoldings scenarioModel 1).isOk = true := by
  have h1 : pyRound2 ((splitModel.map ModelRow.target_allocation).sum) ≠ 1 := by
    norm_num [pyRound2, splitModel]
  have h2 : pyRound2 ((scenarioModel.map ModelRow.target_allocation).sum) = 1 := by
    norm_num [pyRound2, scenarioModel]
  refine ⟨(C5_model_allocation_sum_validation [] splitModel 1).1 h1, ?_⟩
  obtain ⟨p, hp⟩ :=
    (C5_model_allocation_sum_validation scenarioHoldings scenarioModel 1).2 h2 (by decide)
  rw [hp]
  rfl

/-- C6: whenever the core/satellite split succeeds, it is an exact
partition of the holdings rows by ticker: a holding's ticker has a core
row exactly when it is a model key and a satellite row exactly when it is
not; every core and satellite row comes from the holdings; and no holding
ticker is in both. -/
theorem C6_core_satellite_partition (model : List ModelRow)
    (portfolio core satellite : List Row)
    (hsplit : core_satellite_portfolio_split model portfolio = .ok (core, satellite)) :
    (∀ h ∈ portfolio,
      ((∃ c ∈ core, c.ticker = h.ticker) ↔ (∃ m ∈ model, m.ticker = h.ticker)) ∧
      ((∃ s ∈ satellite, s.ticker = h.ticker) ↔ ¬ ∃ m ∈ model, m.ticker = h.ticker)) ∧
    (∀ c ∈ core, ∃ h ∈ portfolio, c.ticker = h.ticker) ∧
    (∀ s ∈ satellite, ∃ h ∈ portfolio, s.ticker = h.ticker) ∧
    (∀ h ∈ portfolio, ¬ ((∃ c ∈ core, c.ticker = h.ticker) ∧
        (∃ s ∈ satellite, s.ticker = h.ticker))) := by
  cases hl : locRows portfolio model with
  | error e =>
    simp only [core_satellite_portfolio_split, Bind.bind, Except.bind, hl] at hsplit
    cases hsplit
  | ok l =>
    simp only [core_satellite_portfolio_split, Bind.bind, Except.bind, hl,
      Pure.pure, Except.pure] at hsplit
    have hpair := Except.ok.inj hsplit
    have hcore : ((l.map (fun r =>
        { r with actual_allocation := r.total_value / totalCoreValue l })).filterMap
          (fun r => (model.find? (fun m => decide (m.ticker = r.ticker))).map
            (fun m => { r with target_allocation := m.target_allocation }))) = core :=
      congrArg Prod.fst hpair
    have hsat : (portfolio.filter
        (fun r => ! model.any (fun m => decide (m.ticker = r.ticker)))) = satellite :=
      congrArg Prod.snd hpair
    -- characterisation of core membership by ticker
    have hcore_char : ∀ t : String, (∃ c ∈ core, c.ticker = t) ↔
        ((∃ r ∈ l, r.ticker = t) ∧ ∃ m ∈ model, m.ticker = t) := by
      intro t
      constructor
      · rintro ⟨c, hc, rfl⟩
        rw [← hcore] at hc
        rcases List.mem_filterMap.mp hc with ⟨x, hx, hfx⟩
        rcases Option.map_eq_some'.mp hfx with ⟨m, hfind, rfl⟩
        rcases List.mem_map.mp hx with ⟨r, hr, rfl⟩
        refine ⟨⟨r, hr, rfl⟩, m, List.mem_of_find?_eq_some hfind, ?_⟩
        have := List.find?_some hfind
        simpa using this
      · rintro ⟨⟨r, hr, hrt⟩, m, hm, hmt⟩
        have hfind : (model.find? (fun m' => decide (m'.ticker = r.ticker))).isSome := by
          rw [List.find?_isSome]
          exact ⟨m, hm, by simp [hmt, hrt]⟩
        rcases Option.isSome_iff_exists.mp hfind with ⟨m'', hm''⟩
        refine ⟨{ r with
                  actual_allocation := r.total_value / totalCoreValue l
                  target_allocation := m''.target_allocation }, ?_, hrt⟩
        rw [← hcore]
        apply List.mem_filterMap.mpr
        exact ⟨{ r with actual_allocation := r.total_value / totalCoreValue l },
          List.mem_map_of_mem _ hr, by simp [hm'']⟩
    -- characterisation of satellite membership
    have hsat_char : ∀ s : Row, s ∈ satellite ↔
        (s ∈ portfolio ∧ ¬ ∃ m ∈ model, m.ticker = s.ticker) := by
      intro s
      rw [← hsat, List.mem_filter]
      simp only [Bool.not_eq_true', List.any_eq_false, decide_eq_false_iff_not,
        decide_eq_true_eq]
      constructor
      · rintro ⟨hs, hcond⟩
        exact ⟨hs, fun h2 => by
          rcases h2 with ⟨m, hm, hmt⟩
          exact hcond m hm hmt⟩
      · rintro ⟨hs, hno⟩
        exact ⟨hs, fun m hm hmt => hno ⟨m, hm, hmt⟩⟩
    have hlsub : ∀ r ∈ l, r ∈ portfolio := by
      intro r hr
      rcases locRows_ok_mem_left hl r hr with ⟨m, hm, hlook⟩
      exact (lookupTicker_spec hlook).1
    refine ⟨?_, ?_, ?_, ?_⟩
    · intro h hh
      constructor
      · rw [hcore_char h.ticker]
        constructor
        · rintro ⟨_, hm⟩
          exact hm
        · rintro ⟨m, hm, hmt⟩
          rcases locRows_ok_mem_right hl m hm with ⟨r, hr, hrt⟩
          exact ⟨⟨r, hr, hrt.trans hmt⟩, m, hm, hmt⟩
      · constructor
        · rintro ⟨s, hs, hst⟩
          have := (hsat_char s).mp hs
          rw [← hst]
          exact this.2
        · intro hno
          exact ⟨h, (hsat_char h).mpr ⟨hh, hno⟩, rfl⟩
    · intro c hc
      rcases (hcore_char c.ticker).mp ⟨c, hc, rfl⟩ with ⟨⟨r, hr, hrt⟩, _⟩
      exact ⟨r, hlsub r hr, hrt.symm⟩
    · intro s hs
      exact ⟨s, ((hsat_char s).mp hs).1, rfl⟩
    · rintro h hh ⟨⟨c, hc, hct⟩, s, hs, hst⟩
      have hmodelmem := ((hcore_char h.ticker).mp ⟨c, hc, hct⟩).2
      have hnomodel := ((hsat_char s).mp hs).2
      rw [hst] at hnomodel
      exact hnomodel hmodelmem

/-- C6 witness: the split succeeds on the concrete two-row holdings with a
one-ticker model; instantiating the theorem there shows the model ticker A
lands in the core table and the non-model ticker B in the satellite. -/
theorem C6_core_satellite_partition_witness :
    splitCore.any (fun c => decide (c.ticker = "A")) = true ∧
    splitSatellite.any (fun s => decide (s.ticker = "B")) = true := by
  have sAB : ("A" : String) = "B" ↔ False := iff_false_intro (by decide)
  have sBA : ("B" : String) = "A" ↔ False := iff_false_intro (by decide)
  have h := C6_core_satellite_partition splitModel splitHoldings splitCore splitSatellite
    (by norm_num [core_satellite_portfolio_split, locRows, lookupTicker, splitModel,
      splitHoldings, splitCore, splitSatellite, List.find?, Except.map, Bind.bind,
      Except.bind, Pure.pure, Except.pure, totalCoreValue, List.filter, List.filterMap,
      sAB, sBA])
  constructor
  · have hmemA : ({ ticker := "A", total_value := 100 } : Row) ∈ splitHoldings := by
      unfold splitHoldings
      exact List.mem_cons_self _ _
    have hexm : ∃ m ∈ splitModel,
        m.ticker = ({ ticker := "A", total_value := 100 } : Row).ticker := by
      refine ⟨{ ticker := "A", target_allocation := 1/2 }, ?_, rfl⟩
      unfold splitModel
      exact List.mem_cons_self _ _
    rcases (h.1 _ hmemA).1.mpr hexm with ⟨c, hc, hct⟩
    exact List.any_eq_true.mpr ⟨c, hc, by simp [hct]⟩
  · have hmemB : ({ ticker := "B", total_value := 50 } : Row) ∈ splitHoldings := by
      unfold splitHoldings
      exact List.mem_cons_of_mem _ (List.mem_cons_self _ _)
    have hnom : ¬ ∃ m ∈ splitModel,
        m.ticker = ({ ticker := "B", total_value := 50 } : Row).ticker := by
      rintro ⟨m, hm, hmt⟩
      unfold splitModel at hm
      rcases List.mem_cons.mp hm with rfl | h0
      · exact absurd hmt (by decide)
      · cases h0
    rcases (h.1 _ hmemB).2.mpr hnom with ⟨s, hs, hst⟩
    exact List.any_eq_true.mpr ⟨s, hs, by simp [hst]⟩

theorem bumpStorage_tickers (storage : List StorageRow) (t : String) (c : ℚ) :
    (bumpStorage storage t c).map StorageRow.ticker = storage.map StorageRow.ticker := by
  unfold bumpStorage
  rw [List.map_map]
  apply List.map_congr_left
  intro s hs
  by_cases h : s.ticker = t <;> simp [h]

theorem initStorage_tickers (S : List Row) :
    (initStorage S).map StorageRow.ticker = S.map Row.ticker := by
  unfold initStorage
  rw [List.map_map]
  rfl

theorem storageSpent_init (S : List Row) : storageSpent (initStorage S) = 0 := by
  unfold storageSpent initStorage
  rw [List.map_map]
  apply List.sum_eq_zero
  intro x hx
  rcases List.mem_map.mp hx with ⟨r, hr, rfl⟩
  rfl

theorem natFloor_div_lt {x y c : ℚ} (hc : 0 < c) (hx : 0 ≤ x) (hxy : x ≤ y - c) :
    ⌊x / c⌋₊ < ⌊y / c⌋₊ := by
  have h0 : (x + c) / c = x / c + 1 := by
    rw [add_div, div_self (ne_of_gt hc)]
  have h1 : x / c + 1 ≤ y / c := by
    rw [← h0]
    exact (div_le_div_iff_of_pos_right hc).mpr (by linarith)
  have h2 : ⌊x / c⌋₊ + 1 = ⌊x / c + 1⌋₊ :=
    (Nat.floor_add_one (by positivity)).symm
  have h3 : ⌊x / c + 1⌋₊ ≤ ⌊y / c⌋₊ := Nat.floor_mono h1
  omega

/-- The invariant argument for the spend loop: at a loop head whose
working set is affordable, has prices bounded below by a positive `pmin`
and tickers drawn from the (duplicate-free) storage index, the loop with
more than `money / pmin` units of fuel finishes with the `done` outcome,
non-negative remaining cash, and exact accounting of purchases into the
storage table. -/
theorem spendLoop_inv (fx pmin : ℚ) (hpmin : 0 < pmin) :
    ∀ fuel : ℕ, ∀ S : List Row, ∀ money : ℚ, ∀ storage : List StorageRow,
      (∀ r ∈ S, pmin ≤ r.closing_price) →
      (∀ r ∈ S, r.closing_price ≤ money) →
      (∀ r ∈ S, r.ticker ∈ storage.map StorageRow.ticker) →
      (storage.map StorageRow.ticker).Nodup →
      0 ≤ money →
      ⌊money / pmin⌋₊ < fuel →
      ∃ st m, spendLoop fx fuel S money storage = .done st m ∧
        0 ≤ m ∧ m + storageSpent st = money + storageSpent storage := by
  intro fuel
  induction fuel with
  | zero =>
    intro S money storage _ _ _ _ _ hlt
    exact absurd hlt (by omega)
  | succ n ih =>
    intro S money storage hmin hmax htick hnd hm0 hfuel
    by_cases hS : S.isEmpty = true
    · refine ⟨storage, money, ?_, hm0, rfl⟩
      simp [spendLoop, hS]
    · have hSne : S ≠ [] := by
        cases S with
        | nil => simp at hS
        | cons a as => simp
      have hfilter : affordableRows S money = S := by
        unfold affordableRows
        apply List.filter_eq_self.mpr
        intro r hr
        simpa using hmax r hr
      rcases ticker_to_buy_exists hSne with ⟨t, ht, htmem⟩
      have hstep : spendLoop fx (n + 1) S money storage
          = spendLoop fx n
              (affordableRows (rebalance_no_sell (rebalance (calculate_total_value fx
                (incrementQuantity S t.ticker)))) (money - t.closing_price))
              (money - t.closing_price)
              (bumpStorage storage t.ticker t.closing_price) := by
        simp only [spendLoop, if_neg hS, hfilter, ht]
      have hple : pmin ≤ t.closing_price := hmin t htmem
      have hplm : t.closing_price ≤ money := hmax t htmem
      have hm0' : 0 ≤ money - t.closing_price := by linarith
      have hmin4 : ∀ r ∈ affordableRows (rebalance_no_sell (rebalance
          (calculate_total_value fx (incrementQuantity S t.ticker))))
          (money - t.closing_price), pmin ≤ r.closing_price := by
        intro r hr
        rcases affordableRows_subset r hr with ⟨hr3, _⟩
        rcases loopBody_track fx _ r hr3 with ⟨r2, hr2, _, hp2⟩
        rcases incrementQuantity_track t.ticker r2 hr2 with ⟨r0, hr0, _, hp0⟩
        rw [hp2, hp0]
        exact hmin r0 hr0
      have hmax4 : ∀ r ∈ affordableRows (rebalance_no_sell (rebalance
          (calculate_total_value fx (incrementQuantity S t.ticker))))
          (money - t.closing_price), r.closing_price ≤ money - t.closing_price := by
        intro r hr
        exact (affordableRows_subset r hr).2
      have htick4 : ∀ r ∈ affordableRows (rebalance_no_sell (rebalance
          (calculate_total_value fx (incrementQuantity S t.ticker))))
          (money - t.closing_price),
          r.ticker ∈ (bumpStorage storage t.ticker t.closing_price).map
            StorageRow.ticker := by
        intro r hr
        rw [bumpStorage_tickers]
        rcases affordableRows_subset r hr with ⟨hr3, _⟩
        rcases loopBody_track fx _ r hr3 with ⟨r2, hr2, ht2, _⟩
        rcases incrementQuantity_track t.ticker r2 hr2 with ⟨r0, hr0, ht0, _⟩
        rw [ht2, ht0]
        exact htick r0 hr0
      have hnd4 : ((bumpStorage storage t.ticker t.closing_price).map
          StorageRow.ticker).Nodup := by
        rw [bumpStorage_tickers]
        exact hnd
      have hfuel4 : ⌊(money - t.closing_price) / pmin⌋₊ < n := by
        have hlt : ⌊(money - t.closing_price) / pmin⌋₊ < ⌊money / pmin⌋₊ :=
          natFloor_div_lt hpmin hm0' (by linarith)
        omega
      rcases ih _ _ _ hmin4 hmax4 htick4 hnd4 hm0' hfuel4 with ⟨st, m, heq, hm, hsum⟩
      refine ⟨st, m, ?_, hm, ?_⟩
      · rw [hstep]
        exact heq
      · have hbump : storageSpent (bumpStorage storage t.ticker t.closing_price)
            = storageSpent storage + t.closing_price :=
          storageSpent_bump _ (htick t htmem) hnd
        rw [hbump] at hsum
        linarith

/-- C4: for every positive cash amount and every core set with positive
closing prices, positive target allocations, unique tickers and at least
one row priced within the cash, the spend-simulator loop terminates with
the normal `done` outcome within 1 + cash / min(closing_price) loop
steps (so the number of purchase iterations is bounded by
cash / min(closing_price)), and the total recorded spend equals the cash
consumed and never exceeds the original cash. -/
theorem C4_spend_simulator_terminates_within_budget (fx : ℚ) (core : List Row)
    (cash : ℚ)
    (hcash : 0 < cash)
    (hp : ∀ r ∈ core, 0 < r.closing_price)
    (ha : ∀ r ∈ core, 0 < r.target_allocation)
    (hnd : (core.map Row.ticker).Nodup)
    (haff : ∃ r ∈ core, r.closing_price ≤ cash) :
    ∃ st m, spendLoop fx (⌊cash / minClosingPrice core⌋₊ + 1) core cash
        (initStorage core) = .done st m ∧
      0 ≤ m ∧ storageSpent st = cash - m ∧ storageSpent st ≤ cash := by
  rcases haff with ⟨raff, hraffmem, hraff⟩
  have hne : core ≠ [] := List.ne_nil_of_mem hraffmem
  have hpmin : 0 < minClosingPrice core := minClosingPrice_pos hne hp
  have hSb : ¬ (core.isEmpty = true) := by
    cases core with
    | nil => exact absurd rfl hne
    | cons a as => simp
  have hS1ne : affordableRows core cash ≠ [] := by
    apply List.ne_nil_of_mem (a := raff)
    unfold affordableRows
    exact List.mem_filter.mpr ⟨hraffmem, by simpa using hraff⟩
  rcases ticker_to_buy_exists hS1ne with ⟨t, ht, htmem⟩
  rcases affordableRows_subset t htmem with ⟨htcore, htcash⟩
  have hstep : spendLoop fx (⌊cash / minClosingPrice core⌋₊ + 1) core cash
      (initStorage core)
      = spendLoop fx ⌊cash / minClosingPrice core⌋₊
          (affordableRows (rebalance_no_sell (rebalance (calculate_total_value fx
            (incrementQuantity (affordableRows core cash) t.ticker))))
            (cash - t.closing_price))
          (cash - t.closing_price)
          (bumpStorage (initStorage core) t.ticker t.closing_price) := by
    simp only [spendLoop, if_neg hSb, ht]
  have hple : minClosingPrice core ≤ t.closing_price := minClosingPrice_le htcore
  have hm0' : 0 ≤ cash - t.closing_price := by linarith
  have hmin4 : ∀ r ∈ affordableRows (rebalance_no_sell (rebalance
      (calculate_total_value fx (incrementQuantity (affordableRows core cash)
        t.ticker)))) (cash - t.closing_price),
      minClosingPrice core ≤ r.closing_price := by
    intro r hr
    rcases affordableRows_subset r hr with ⟨hr3, _⟩
    rcases loopBody_track fx _ r hr3 with ⟨r2, hr2, _, hp2⟩
    rcases incrementQuantity_track t.ticker r2 hr2 with ⟨r1, hr1, _, hp1⟩
    rcases affordableRows_subset r1 hr1 with ⟨hr0, _⟩
    rw [hp2, hp1]
    exact minClosingPrice_le hr0
  have hmax4 : ∀ r ∈ affordableRows (rebalance_no_sell (rebalance
      (calculate_total_value fx (incrementQuantity (affordableRows core cash)
        t.ticker)))) (cash - t.closing_price),
      r.closing_price ≤ cash - t.closing_price := by
    intro r hr
    exact (affordableRows_subset r hr).2
  have htick4 : ∀ r ∈ affordableRows (rebalance_no_sell (rebalance
      (calculate_total_value fx (incrementQuantity (affordableRows core cash)
        t.ticker)))) (cash - t.closing_price),
      r.ticker ∈ (bumpStorage (initStorage core) t.ticker t.closing_price).map
        StorageRow.ticker := by
    intro r hr
    rw [bumpStorage_tickers, initStorage_tickers]
    rcases affordableRows_subset r hr with ⟨hr3, _⟩
    rcases loopBody_track fx _ r hr3 with ⟨r2, hr2, ht2, _⟩
    rcases incrementQuantity_track t.ticker r2 hr2 with ⟨r1, hr1, ht1, _⟩
    rcases affordableRows_subset r1 hr1 with ⟨hr0, _⟩
    rw [ht2, ht1]
    exact List.mem_map_of_mem _ hr0
  have hnd4 : ((bumpStorage (initStorage core) t.ticker t.closing_price).map
      StorageRow.ticker).Nodup := by
    rw [bumpStorage_tickers, initStorage_tickers]
    exact hnd
  have hfuel4 : ⌊(cash - t.closing_price) / minClosingPrice core⌋₊
      < ⌊cash / minClosingPrice core⌋₊ :=
    natFloor_div_lt hpmin hm0' (by linarith)
  rcases spendLoop_inv fx (minClosingPrice core) hpmin _ _ _ _
    hmin4 hmax4 htick4 hnd4 hm0' hfuel4 with ⟨st, m, heq, hm, hsum⟩
  have hbump : storageSpent (bumpStorage (initStorage core) t.ticker t.closing_price)
      = storageSpent (initStorage core) + t.closing_price :=
    storageSpent_bump _ (by
      rw [initStorage_tickers]
      exact List.mem_map_of_mem _ htcore) (by
      rw [initStorage_tickers]
      exact hnd)
  rw [hbump, storageSpent_init] at hsum
  refine ⟨st, m, ?_, hm, ?_, ?_⟩
  · rw [hstep]
    exact heq
  · linarith
  · linarith

/-- C4 witness: on the concrete one-row core with price 10 and cash 15,
the loop run with the budgeted fuel reaches the normal `done` outcome. -/
theorem C4_spend_simulator_terminates_witness :
    (spendLoop 1 (⌊(15 : ℚ) / minClosingPrice spendCore⌋₊ + 1) spendCore 15
      (initStorage spendCore)).isDone = true := by
  obtain ⟨st, m, heq, _⟩ := C4_spend_simulator_terminates_within_budget 1 spendCore 15
    (by norm_num)
    (by decide)
    (by decide)
    (by decide)
    (by decide)
  rw [heq]
  rfl
